import Mathlib

/-!
Verification development for the DART scorecard scraper's search core
(src/jetlag.py, src/gtfslib.py).

The Python source is shallowly embedded:

* `RouteSegmentCollection` and its operations (`append`, `append_`,
  `get_last_trip`, `__get_cmp_key`, `__lt__`, `__gt__`, `__eq__`,
  `starting_collection`) become Lean structures and functions; time offsets
  (Python `timedelta`) are rational numbers of seconds.
* Code that raises a Python exception is embedded with `Except String`;
  code that returns the sentinel `None` is embedded with `Option`.
* The pandas tables are embedded as lists of rows; `sort_values` over the
  departure column becomes `List.insertionSort` with missing values (NaT)
  ordered last, and `drop_duplicates(keep=first)` becomes a first-occurrence
  deduplication over the route-id key.
* The mutable module-level search state (`queue`, `visited_stops`,
  `visited_trips`, `added_stops`) becomes an explicit `SearchState` record
  threaded through the loop body; the `heapq` frontier is a list whose pop
  removes the first minimal element under the `__lt__` comparison.
* The external spatial queries (`CoordsUtil.buffer_points` +
  `GTFS.get_stops_in_area` + `shapely.distance`) are abstracted by a
  distance table `stop_dist`: the stops inside the buffered disc of radius
  `r` around `s` are exactly the stops at distance `≤ r` from `s`.
* A ghost field `boardings` logs each trip id at the moment the code adds
  it to `visited_trips` (src/jetlag.py line 263); it is written exactly
  where the source mutates `visited_trips` and affects no behavior.
-/

namespace Jetlag

/-! ## Path representation: `RouteSegmentCollection` (src/jetlag.py 124-216) -/

/-- One travel segment (`RouteSegmentCollection.RouteSegment`, lines 125-130).
Time offsets are rationals (seconds since service-day start). -/
structure RouteSegment where
  departure_td : ℚ
  arrival_td : ℚ
  route_name : String
  arrival_stop_id : ℕ
deriving DecidableEq, Repr

/-- A path: a day plus an ordered tuple of segments (lines 135-137). -/
structure RouteSegmentCollection where
  day : ℕ
  trips : List RouteSegment
deriving DecidableEq, Repr

/-- `STARTING_ROUTE_NAME` (line 133). -/
def STARTING_ROUTE_NAME : String := "__start__"

/-- `append_` (lines 142-143): builds a new collection from the receiver's
day, all of its segments, and the new segment.  The source performs no
check of any kind before appending. -/
def RouteSegmentCollection.append_ (c : RouteSegmentCollection)
    (trip : RouteSegment) : RouteSegmentCollection :=
  ⟨c.day, c.trips ++ [trip]⟩

/-- `append` (lines 139-140): constructs the segment and delegates to `append_`. -/
def RouteSegmentCollection.append (c : RouteSegmentCollection)
    (departure_td arrival_td : ℚ) (route_name : String)
    (arrival_stop_id : ℕ) : RouteSegmentCollection :=
  c.append_ ⟨departure_td, arrival_td, route_name, arrival_stop_id⟩

/-- `get_last_trip` (lines 145-148): returns the Python sentinel `None`
(embedded `none`) when there are no segments, otherwise `trips[-1]`.
The source never raises here, so the embedding is a total `Option`-valued
function, not an `Except`. -/
def RouteSegmentCollection.get_last_trip (c : RouteSegmentCollection) :
    Option RouteSegment :=
  c.trips.getLast?

/-- `starting_collection` (lines 183-186): one segment from the start time
to itself at the start stop, labeled `STARTING_ROUTE_NAME`. -/
def starting_collection (day : ℕ) (td : ℚ) (start_stop_id : ℕ) :
    RouteSegmentCollection :=
  (RouteSegmentCollection.mk day []).append td td STARTING_ROUTE_NAME start_stop_id

/-- `__get_cmp_key` (lines 197-200): raises `ValueError` on an empty
collection, otherwise the pair (last arrival offset, number of segments). -/
def cmp_key (c : RouteSegmentCollection) : Except String (ℚ × ℕ) :=
  match c.trips.getLast? with
  | none => .error "route collection needs a segment to compare against"
  | some s => .ok (s.arrival_td, c.trips.length)

/-- Python's lexicographic `<` on pairs, as used by tuple comparison. -/
def keyLtB (k1 k2 : ℚ × ℕ) : Bool :=
  decide (k1.1 < k2.1) || (decide (k1.1 = k2.1) && decide (k1.2 < k2.2))

/-- `__lt__` (lines 202-205): compares the two cmp keys; propagates the
`ValueError` of either key computation. -/
def rsc_lt (p q : RouteSegmentCollection) : Except String Bool :=
  match cmp_key p, cmp_key q with
  | .ok kp, .ok kq => .ok (keyLtB kp kq)
  | .error e, _ => .error e
  | .ok _, .error e => .error e

/-- `__gt__` (lines 207-210): mirror comparison of the two cmp keys. -/
def rsc_gt (p q : RouteSegmentCollection) : Except String Bool :=
  match cmp_key p, cmp_key q with
  | .ok kp, .ok kq => .ok (keyLtB kq kp)
  | .error e, _ => .error e
  | .ok _, .error e => .error e

/-- `__eq__` (lines 215-216): equality of the segment tuples only
(the `day` field does not participate). -/
def rsc_eq (p q : RouteSegmentCollection) : Bool :=
  decide (p.trips = q.trips)

/-! ## Schedule access (src/gtfslib.py `build_stop_timetable`,
src/jetlag.py 93-121) -/

/-- One row of the `stop_times` table (already merged with `trips`, whose
per-trip columns are modelled as functions of the trip id below).
`arrival_time`/`departure_time` are `none` for NaT entries. -/
structure STRow where
  trip_id : ℕ
  stop_id : ℕ
  stop_sequence : ℕ
  arrival_time : Option ℚ
  departure_time : Option ℚ
deriving DecidableEq, Repr

/-- The loaded GTFS feed, restricted to what the search loop consults.
`stop_dist s1 s2` abstracts the planar `shapely.distance` between the two
stops' geometries; `all_stops` is the stops table. -/
structure GTFSModel where
  stop_times : List STRow
  route_of_trip : ℕ → ℕ
  trip_headsign : ℕ → String
  trip_route_types : ℕ → ℕ
  stop_dist : ℕ → ℕ → ℚ
  all_stops : List ℕ

/-- Sort key for `sort_values(["date", "departure_time"])` on a single-date
query: the departure column, with NaT (`none`) ordered last. -/
def depKey (r : STRow) : WithTop ℚ :=
  match r.departure_time with
  | none => ⊤
  | some q => (q : WithTop ℚ)

/-- Row ordering by departure time, NaT last. -/
def depLe (a b : STRow) : Prop := depKey a ≤ depKey b

instance : DecidableRel depLe :=
  fun a b => inferInstanceAs (Decidable (depKey a ≤ depKey b))

instance : IsTotal STRow depLe := ⟨fun a b => le_total (depKey a) (depKey b)⟩

instance : IsTrans STRow depLe := ⟨fun _ _ _ h1 h2 => le_trans h1 h2⟩

/-- `get_stop_timetable` (src/jetlag.py 93-98) backed by
`GTFS.build_stop_timetable` (src/gtfslib.py 89-127): the merged
trips/stop_times rows restricted to the given stop, sorted by departure
time (single service date). -/
def get_stop_timetable (g : GTFSModel) (stop : ℕ) : List STRow :=
  List.insertionSort depLe (g.stop_times.filter (fun r => decide (r.stop_id = stop)))

/-- `df_time_bound` (src/jetlag.py 101-107): keep rows whose departure and
arrival are both present; additionally require departure ≥ lower and
arrival ≤ upper — but, exactly as in the source's `if lower:` / `if upper:`
truthiness tests, each bound is applied only when it is nonzero. -/
def df_time_bound (rows : List STRow) (lower upper : ℚ) : List STRow :=
  rows.filter (fun r =>
    r.arrival_time.isSome && r.departure_time.isSome
      && (decide (lower = 0) || decide (lower ≤ r.departure_time.getD 0))
      && (decide (upper = 0) || decide (r.arrival_time.getD 0 ≤ upper)))

/-- `trips_between_for_stop` (src/jetlag.py 109-111). -/
def trips_between_for_stop (g : GTFSModel) (stop : ℕ) (t1 t2 : ℚ) : List STRow :=
  df_time_bound (get_stop_timetable g stop) t1 t2

/-- `drop_duplicates('route_id', keep='first')` (src/jetlag.py 251): keep
the first row of each route id, scanning left to right; `seen` is the set
of route ids already emitted. -/
def drop_duplicates_route (g : GTFSModel) (seen : List ℕ) :
    List STRow → List STRow
  | [] => []
  | r :: rest =>
    if g.route_of_trip r.trip_id ∈ seen then
      drop_duplicates_route g seen rest
    else
      r :: drop_duplicates_route g (g.route_of_trip r.trip_id :: seen) rest

/-- `first_available_routes` (src/jetlag.py 250-251): the windowed stop
timetable reduced to the first (earliest-departing) row per route id. -/
def first_available_routes (g : GTFSModel) (stop : ℕ) (t hor : ℚ) :
    List STRow :=
  drop_duplicates_route g [] (trips_between_for_stop g stop t hor)

/-- `get_future_stops_on_trip` (src/jetlag.py 119-121): the trip's
stop_times rows with a strictly larger stop sequence, in table order. -/
def get_future_stops_on_trip (g : GTFSModel) (trip : ℕ) (stop_seq : ℕ) :
    List STRow :=
  g.stop_times.filter
    (fun r => decide (r.trip_id = trip) && decide (stop_seq < r.stop_sequence))

/-- `timedelta_coerce` (src/jetlag.py 75-78) as applied to a pandas column
value: a present timedelta is returned unchanged; a missing value (NaT) is
not a `timedelta`/`time` and the fallthrough raises. -/
def timedelta_coerce (t : Option ℚ) : Except String ℚ :=
  match t with
  | some q => .ok q
  | none => .error "TypeError"

/-! ## Walking helpers (src/jetlag.py 272-289) -/

/-- `timedelta.seconds`: the seconds component of a duration given in
(fractional) seconds — whole seconds modulo one day. -/
def timedeltaSeconds (q : ℚ) : ℤ :=
  Int.emod ⌊q⌋ 86400

/-- Python's builtin `round`: round half to even. -/
def pyRound (q : ℚ) : ℤ :=
  if q - ⌊q⌋ < 1/2 then ⌊q⌋
  else if 1/2 < q - ⌊q⌋ then ⌊q⌋ + 1
  else if ⌊q⌋ % 2 = 0 then ⌊q⌋ else ⌊q⌋ + 1

/-- The walking segment label `f"Walk {round(d)} meters"` (line 289). -/
def walkLabel (d : ℚ) : String :=
  "Walk " ++ toString (pyRound d) ++ " meters"

/-- `str.startswith` on the embedded strings. -/
def pyStartsWith (s p : String) : Bool :=
  p.data.isPrefixOf s.data

/-! ## Search state and frontier (src/jetlag.py 219-237) -/

/-- Python `dict` lookup over the embedded association list (first match;
the insert below keeps keys unique). -/
def alLookup {α : Type} (k : ℕ) : List (ℕ × α) → Option α
  | [] => none
  | (k2, v) :: rest => if k2 = k then some v else alLookup k rest

/-- Python `dict` assignment: overwrite the existing binding of the key, or
add a new binding at the end. -/
def alInsert {α : Type} (k : ℕ) (v : α) : List (ℕ × α) → List (ℕ × α)
  | [] => [(k, v)]
  | (k2, v2) :: rest =>
    if k2 = k then (k, v) :: rest else (k2, v2) :: alInsert k v rest

/-- The engine's mutable module-level state (src/jetlag.py 219-227).
`boardings` is a ghost log of the trip ids added to `visited_trips`
(line 263), in program order; it drives no decision. -/
structure SearchState where
  queue : List RouteSegmentCollection
  visited_stops : List (ℕ × RouteSegmentCollection)
  visited_trips : List ℕ
  added_stops : List (ℕ × ℚ)
  boardings : List ℕ
deriving DecidableEq, Repr

/-- Search configuration constants (src/jetlag.py 20-25, 224):
`horizon` is `end_timedelta`. -/
structure Config where
  horizon : ℚ
  walking_speed : ℚ
  allowed_modes : List ℕ
deriving DecidableEq, Repr

/-- `heapq.heappop`: remove the minimal element under `__lt__`; among
equal cmp keys the earliest-listed element is taken (a deterministic
refinement of the heap's unspecified tie order). Raises on an empty heap;
propagates the `ValueError` of comparing a segmentless collection. -/
def popMin : List RouteSegmentCollection →
    Except String (RouteSegmentCollection × List RouteSegmentCollection)
  | [] => .error "IndexError"
  | [x] => .ok (x, [])
  | x :: y :: rest =>
    match popMin (y :: rest) with
    | .error e => .error e
    | .ok (m, rest2) =>
      match cmp_key x, cmp_key m with
      | .ok kx, .ok km =>
        if keyLtB km kx then .ok (m, x :: rest2) else .ok (x, y :: rest)
      | .error e, _ => .error e
      | .ok _, .error e => .error e

/-- `push_to_queue` (src/jetlag.py 230-237): reads the last segment's stop
and arrival (AttributeError on a segmentless path); if the stop already has
a recorded tentative time and the new arrival is strictly later, skip;
otherwise push onto the heap and record the arrival. -/
def push_to_queue (rc : RouteSegmentCollection) (st : SearchState) :
    Except String SearchState :=
  match rc.trips.getLast? with
  | none => .error "AttributeError"
  | some last =>
    match alLookup last.arrival_stop_id st.added_stops with
    | some t =>
      if last.arrival_td > t then .ok st
      else .ok { st with
        queue := st.queue ++ [rc],
        added_stops := alInsert last.arrival_stop_id last.arrival_td st.added_stops }
    | none => .ok { st with
        queue := st.queue ++ [rc],
        added_stops := alInsert last.arrival_stop_id last.arrival_td st.added_stops }

/-! ## Main loop body (src/jetlag.py 240-289) -/

/-- The inner loop over `get_future_stops_on_trip` (lines 265-270): for
each downstream stop, coerce the arrival, skip it when past the horizon,
otherwise push the extended path. -/
def pushFutureStops (cfg : Config) (rc : RouteSegmentCollection) (dep : ℚ)
    (name : String) : List STRow → SearchState → Except String SearchState
  | [], st => .ok st
  | row :: rest, st =>
    match timedelta_coerce row.arrival_time with
    | .error e => .error e
    | .ok arr =>
      if arr > cfg.horizon then pushFutureStops cfg rc dep name rest st
      else
        match push_to_queue (rc.append dep arr name row.stop_id) st with
        | .error e => .error e
        | .ok st2 => pushFutureStops cfg rc dep name rest st2

/-- The loop over `first_available_routes` (lines 253-270): per candidate,
coerce the departure, skip disallowed modes and already-boarded trips,
otherwise record the trip as boarded and push one path per future stop. -/
def processCandidates (g : GTFSModel) (cfg : Config)
    (rc : RouteSegmentCollection) :
    List STRow → SearchState → Except String SearchState
  | [], st => .ok st
  | cand :: rest, st =>
    match timedelta_coerce cand.departure_time with
    | .error e => .error e
    | .ok dep =>
      if g.trip_route_types cand.trip_id ∈ cfg.allowed_modes then
        if cand.trip_id ∈ st.visited_trips then
          processCandidates g cfg rc rest st
        else
          match pushFutureStops cfg rc dep (g.trip_headsign cand.trip_id)
              (get_future_stops_on_trip g cand.trip_id cand.stop_sequence)
              { st with visited_trips := cand.trip_id :: st.visited_trips,
                        boardings := st.boardings ++ [cand.trip_id] } with
          | .error e => .error e
          | .ok st2 => processCandidates g cfg rc rest st2
      else processCandidates g cfg rc rest st

/-- The loop over `stops_in_area` (lines 285-289): per nearby stop, the
straight-line distance `d` gives arrival `td + d / speed` and the label
`walkLabel d`; the extended path is pushed. -/
def pushWalks (g : GTFSModel) (cfg : Config) (rc : RouteSegmentCollection)
    (stop : ℕ) (td : ℚ) : List ℕ → SearchState → Except String SearchState
  | [], st => .ok st
  | s2 :: rest, st =>
    match push_to_queue
        (rc.append td (td + g.stop_dist stop s2 / cfg.walking_speed)
          (walkLabel (g.stop_dist stop s2)) s2) st with
    | .error e => .error e
    | .ok st2 => pushWalks g cfg rc stop td rest st2

/-- The walking stage (lines 272-289): skipped when the popped path's last
segment label starts with "Walk ", or when the walking speed is ≤ 0;
otherwise the stops within `speed * (horizon - td).seconds` of the popped
stop each yield one pushed successor. -/
def walkPhase (g : GTFSModel) (cfg : Config) (rc : RouteSegmentCollection)
    (last : RouteSegment) (st : SearchState) : Except String SearchState :=
  if pyStartsWith last.route_name "Walk " then .ok st
  else if cfg.walking_speed ≤ 0 then .ok st
  else
    pushWalks g cfg rc last.arrival_stop_id last.arrival_td
      (g.all_stops.filter (fun s2 =>
        decide (g.stop_dist last.arrival_stop_id s2 ≤
          cfg.walking_speed *
            ((timedeltaSeconds (cfg.horizon - last.arrival_td) : ℤ) : ℚ))))
      st

/-- Transit expansion followed by walking expansion (lines 250-289), from
the state in which the popped path has just been finalized. -/
def expandPath (g : GTFSModel) (cfg : Config) (rc : RouteSegmentCollection)
    (last : RouteSegment) (st : SearchState) : Except String SearchState :=
  match processCandidates g cfg rc
      (first_available_routes g last.arrival_stop_id last.arrival_td cfg.horizon)
      st with
  | .error e => .error e
  | .ok st3 => walkPhase g cfg rc last st3

/-- One iteration of the `while len(queue)` loop (lines 240-289): pop the
minimal path; read its last segment (AttributeError if it has none);
discard it when its stop is already finalized, or when its arrival exceeds
the horizon; otherwise finalize the stop and expand. -/
def searchStep (g : GTFSModel) (cfg : Config) (st : SearchState) :
    Except String SearchState :=
  match popMin st.queue with
  | .error e => .error e
  | .ok (rc, rest) =>
    match rc.trips.getLast? with
    | none => .error "AttributeError"
    | some last =>
      match alLookup last.arrival_stop_id st.visited_stops with
      | some _ => .ok { st with queue := rest }
      | none =>
        if last.arrival_td > cfg.horizon then .ok { st with queue := rest }
        else
          expandPath g cfg rc last
            { st with queue := rest,
                      visited_stops :=
                        alInsert last.arrival_stop_id rc st.visited_stops }

/-- The full `while len(queue)` loop, fuel-bounded: returns the state once
the queue is empty; `.error "fuel"` when the bound is hit first. -/
def runSearch (g : GTFSModel) (cfg : Config) :
    ℕ → SearchState → Except String SearchState
  | 0, st => if st.queue = [] then .ok st else .error "fuel"
  | fuel + 1, st =>
    if st.queue = [] then .ok st
    else
      match searchStep g cfg st with
      | .error e => .error e
      | .ok st2 => runSearch g cfg fuel st2

instance {ε α : Type} [DecidableEq ε] [DecidableEq α] :
    DecidableEq (Except ε α) := fun x y =>
  match x, y with
  | .ok a, .ok b =>
    if h : a = b then isTrue (by rw [h])
    else isFalse (fun h2 => h (by cases h2; rfl))
  | .error e, .error f =>
    if h : e = f then isTrue (by rw [h])
    else isFalse (fun h2 => h (by cases h2; rfl))
  | .ok _, .error _ => isFalse (fun h2 => Except.noConfusion h2)
  | .error _, .ok _ => isFalse (fun h2 => Except.noConfusion h2)

/-! ## Concrete instances used by witnesses and counterexamples -/

/-- A one-trip feed: trip 10 (route 100, headsign "X") serves stops 1 → 2 → 3
at offsets 10, 20, 30. -/
def gFan : GTFSModel :=
  { stop_times := [
      { trip_id := 10, stop_id := 1, stop_sequence := 1,
        arrival_time := some 10, departure_time := some 10 },
      { trip_id := 10, stop_id := 2, stop_sequence := 2,
        arrival_time := some 20, departure_time := some 20 },
      { trip_id := 10, stop_id := 3, stop_sequence := 3,
        arrival_time := some 30, departure_time := some 30 } ],
    route_of_trip := fun _ => 100,
    trip_headsign := fun _ => "X",
    trip_route_types := fun _ => 0,
    stop_dist := fun _ _ => 0,
    all_stops := [1, 2, 3] }

/-- Horizon 100 s, walking disabled, mode 0 allowed. -/
def cfgFan : Config :=
  { horizon := 100, walking_speed := 0, allowed_modes := [0] }

/-- Start path: at stop 1 at offset 0. -/
def startFan : RouteSegmentCollection := starting_collection 0 0 1

/-- Initial state: the start path alone on the frontier (src/jetlag.py 227). -/
def st0Fan : SearchState :=
  { queue := [startFan], visited_stops := [], visited_trips := [],
    added_stops := [], boardings := [] }

/-- The finalized path for stop 2 in the `gFan` search. -/
def pFanB : RouteSegmentCollection := startFan.append 10 20 "X" 2

/-- The finalized path for stop 3 in the `gFan` search. -/
def pFanC : RouteSegmentCollection := startFan.append 10 30 "X" 3

/-- The terminal state of the `gFan` search. -/
def stFanFinal : SearchState :=
  { queue := [],
    visited_stops := [(1, startFan), (2, pFanB), (3, pFanC)],
    visited_trips := [10],
    added_stops := [(2, 20), (3, 30)],
    boardings := [10] }

/-- A feed with no transit at all and three stops; stop 2 is 7/5 m and
stop 3 is 3/5 m from stop 1. -/
def gWalk : GTFSModel :=
  { stop_times := [],
    route_of_trip := fun _ => 0,
    trip_headsign := fun _ => "",
    trip_route_types := fun _ => 0,
    stop_dist := fun _ s2 => if s2 = 2 then 7/5 else if s2 = 3 then 3/5 else 0,
    all_stops := [1, 2, 3] }

/-- Horizon 100 s, walking speed 1 m/s. -/
def cfgWalk : Config :=
  { horizon := 100, walking_speed := 1, allowed_modes := [] }

/-- Initial state of the walking example. -/
def st0Walk : SearchState :=
  { queue := [starting_collection 0 0 1], visited_stops := [],
    visited_trips := [], added_stops := [], boardings := [] }

/-- Sequentially offer a list of paths to the frontier via `push_to_queue`
(specification vocabulary for the expansion loops). -/
def offerAll : List RouteSegmentCollection → SearchState →
    Except String SearchState
  | [], st => .ok st
  | rc :: rest, st =>
    match push_to_queue rc st with
    | .error e => .error e
    | .ok st2 => offerAll rest st2

/-- Two single-segment paths with identical comparison keys (arrival 5,
one segment) but different segment contents. -/
def pC5a : RouteSegmentCollection := ⟨0, [⟨0, 5, "a", 1⟩]⟩

/-- See `pC5a`. -/
def pC5b : RouteSegmentCollection := ⟨0, [⟨0, 5, "b", 2⟩]⟩

/-- A state whose tentative map already records arrival 10 for stop 5. -/
def stC2 : SearchState :=
  { queue := [], visited_stops := [], visited_trips := [],
    added_stops := [(5, 10)], boardings := [] }

/-- A path arriving at stop 5 at offset 10 — exactly the recorded value. -/
def pC2 : RouteSegmentCollection := ⟨0, [⟨10, 10, "seg", 5⟩]⟩

/-- A path arriving at stop 5 at offset 7 — better than the recorded 10. -/
def pC10 : RouteSegmentCollection := ⟨0, [⟨7, 7, "seg", 5⟩]⟩

/-- The state after offering `pC10` to `stC2`'s frontier. -/
def stC10' : SearchState :=
  { queue := [pC10], visited_stops := [], visited_trips := [],
    added_stops := [(5, 7)], boardings := [] }

/-- A state about to pop `pFanC` although stop 3 is already finalized. -/
def stC3 : SearchState :=
  { queue := [pFanC], visited_stops := [(3, pFanC)], visited_trips := [10],
    added_stops := [], boardings := [10] }

/-- The walking successor of `st0Walk`'s popped start path to stop 1
(distance 0). -/
def pWalk1 : RouteSegmentCollection :=
  (starting_collection 0 0 1).append 0 0 "Walk 0 meters" 1

/-- The walking successor to stop 2: distance 7/5 m, labeled with the
rounded distance. -/
def pWalk2 : RouteSegmentCollection :=
  (starting_collection 0 0 1).append 0 (7/5) "Walk 1 meters" 2

/-- The walking successor to stop 3: distance 3/5 m, labeled with the
rounded distance. -/
def pWalk3 : RouteSegmentCollection :=
  (starting_collection 0 0 1).append 0 (3/5) "Walk 1 meters" 3

/-- The state after one iteration of the `gWalk` search. -/
def stWalkFinal : SearchState :=
  { queue := [pWalk1, pWalk2, pWalk3],
    visited_stops := [(1, starting_collection 0 0 1)],
    visited_trips := [],
    added_stops := [(1, 0), (2, 7/5), (3, 3/5)],
    boardings := [] }

/-- Boarding invariant: no trip id was ever boarded twice, and every
boarded trip is in `visited_trips`. -/
def BoardInv (st : SearchState) : Prop :=
  st.boardings.Nodup ∧ ∀ t ∈ st.boardings, t ∈ st.visited_trips

/-- Horizon invariant: every finalized path's last segment arrives within
the time horizon. -/
def HorizonInv (cfg : Config) (st : SearchState) : Prop :=
  ∀ sp ∈ st.visited_stops, ∀ seg : RouteSegment,
    sp.2.trips.getLast? = some seg → seg.arrival_td ≤ cfg.horizon

/-! ## Association-list lemmas -/

theorem alLookup_alInsert {α : Type} (k s : ℕ) (v : α) (l : List (ℕ × α)) :
    alLookup s (alInsert k v l) = if k = s then some v else alLookup s l := by
  induction l with
  | nil => simp [alInsert, alLookup]
  | cons p rest ih =>
    obtain ⟨k2, v2⟩ := p
    by_cases hk : k2 = k
    · subst hk
      by_cases hs : k2 = s <;> simp [alInsert, alLookup, hs]
    · by_cases hs : k2 = s
      · subst hs
        have hks : ¬ k = k2 := fun h => hk h.symm
        simp [alInsert, hk, alLookup, hks]
      · simp [alInsert, hk, alLookup, hs, ih]

theorem alLookup_isSome_of_mem_keys {α : Type} (k : ℕ) (l : List (ℕ × α))
    (h : k ∈ l.map Prod.fst) : (alLookup k l).isSome := by
  induction l with
  | nil => simp at h
  | cons p rest ih =>
    obtain ⟨k2, v2⟩ := p
    simp only [List.map_cons, List.mem_cons] at h
    by_cases hk : k2 = k
    · simp [alLookup, hk]
    · rcases h with h | h
      · exact absurd h.symm hk
      · simpa [alLookup, hk] using ih h

theorem alInsert_keys_of_lookup_none {α : Type} (k : ℕ) (v : α)
    (l : List (ℕ × α)) (h : alLookup k l = none) :
    (alInsert k v l).map Prod.fst = l.map Prod.fst ++ [k] := by
  induction l with
  | nil => simp [alInsert]
  | cons p rest ih =>
    obtain ⟨k2, v2⟩ := p
    by_cases hk : k2 = k
    · simp [alLookup, hk] at h
    · simp only [alLookup, hk, if_false] at h
      simp [alInsert, hk, ih h]

/-! ## C1: `append` and time monotonicity -/

/-- C1 counterexample: `append` performs no monotonicity check. The path
`starting_collection 0 5 1` has last arrival 5, the candidate segment
departs at 3 < 5, yet `append` succeeds and returns a path containing the
non-monotonic segment — refuting "the append operation fails". -/
theorem C1_counterexample :
    (3 : ℚ) < 5 ∧
    (starting_collection 0 5 1).get_last_trip =
      some ⟨5, 5, STARTING_ROUTE_NAME, 1⟩ ∧
    (starting_collection 0 5 1).append 3 4 "r" 2 =
      ⟨0, [⟨5, 5, STARTING_ROUTE_NAME, 1⟩, ⟨3, 4, "r", 2⟩]⟩ ∧
    (⟨3, 4, "r", 2⟩ : RouteSegment) ∈
      ((starting_collection 0 5 1).append 3 4 "r" 2).trips := by
  refine ⟨by norm_num, rfl, rfl, ?_⟩
  simp [starting_collection, RouteSegmentCollection.append,
    RouteSegmentCollection.append_]

/-- C1 (amended): `append` never fails; for every receiver (monotonic or
not, empty or not) and every candidate segment it returns the receiver's
day and segment list extended by exactly the new segment, which becomes the
last segment. No time-monotonicity condition is checked or enforced by
`append` (src/jetlag.py 139-143). -/
theorem C1_amended (c : RouteSegmentCollection) (dep arr : ℚ)
    (name : String) (stop : ℕ) :
    c.append dep arr name stop =
      ⟨c.day, c.trips ++ [⟨dep, arr, name, stop⟩]⟩ ∧
    (c.append dep arr name stop).get_last_trip =
      some ⟨dep, arr, name, stop⟩ := by
  refine ⟨rfl, ?_⟩
  simp [RouteSegmentCollection.append, RouteSegmentCollection.append_,
    RouteSegmentCollection.get_last_trip]

/-! ## C9: `lastSegment` on an empty path -/

/-- C9 counterexample: `get_last_trip` on the empty path does not fail — the
source (src/jetlag.py 145-148) returns the Python sentinel `None`, embedded
as the ordinary value `none` of its `Option` codomain (raising code is
embedded with `Except`, as in `cmp_key`). This refutes "fails, rather than
returning a value". -/
theorem C9_counterexample :
    (RouteSegmentCollection.mk 0 []).get_last_trip = none ∧
    cmp_key (RouteSegmentCollection.mk 0 []) =
      .error "route collection needs a segment to compare against" := by
  exact ⟨rfl, rfl⟩

/-- C9 (amended): on a path with zero segments `get_last_trip` returns
`None` (it does not raise); on every non-empty path it returns the most
recently appended segment. -/
theorem C9_amended (c : RouteSegmentCollection) :
    (c.trips = [] → c.get_last_trip = none) ∧
    ∀ seg : RouteSegment, (c.append_ seg).get_last_trip = some seg := by
  constructor
  · intro h
    simp [RouteSegmentCollection.get_last_trip, h]
  · intro seg
    simp [RouteSegmentCollection.get_last_trip, RouteSegmentCollection.append_]

/-- C9 witness: the amended theorem applied at the empty path and at a
concrete appended segment. -/
theorem C9_witness :
    (RouteSegmentCollection.mk 0 []).get_last_trip = none ∧
    ((RouteSegmentCollection.mk 0 []).append_ ⟨1, 2, "r", 3⟩).get_last_trip =
      some ⟨1, 2, "r", 3⟩ :=
  ⟨(C9_amended ⟨0, []⟩).1 rfl, (C9_amended ⟨0, []⟩).2 ⟨1, 2, "r", 3⟩⟩

/-! ## C5: path comparison -/

theorem keyLtB_iff (k1 k2 : ℚ × ℕ) :
    keyLtB k1 k2 = true ↔ (k1.1 < k2.1 ∨ (k1.1 = k2.1 ∧ k1.2 < k2.2)) := by
  simp [keyLtB]

theorem keyLtB_irrefl (k : ℚ × ℕ) : keyLtB k k = false := by
  simp [keyLtB]

theorem keyLtB_trans (k1 k2 k3 : ℚ × ℕ) (h1 : keyLtB k1 k2 = true)
    (h2 : keyLtB k2 k3 = true) : keyLtB k1 k3 = true := by
  rw [keyLtB_iff] at h1 h2 ⊢
  rcases h1 with h1 | ⟨he1, hl1⟩
  · rcases h2 with h2 | ⟨he2, _⟩
    · exact Or.inl (h1.trans h2)
    · exact Or.inl (he2 ▸ h1)
  · rcases h2 with h2 | ⟨he2, hl2⟩
    · exact Or.inl (he1 ▸ h2)
    · exact Or.inr ⟨he1.trans he2, hl1.trans hl2⟩

theorem keyLtB_tri (k1 k2 : ℚ × ℕ) :
    keyLtB k1 k2 = true ∨ keyLtB k2 k1 = true ∨ k1 = k2 := by
  rcases lt_trichotomy k1.1 k2.1 with h | h | h
  · exact Or.inl ((keyLtB_iff k1 k2).2 (Or.inl h))
  · rcases lt_trichotomy k1.2 k2.2 with h2 | h2 | h2
    · exact Or.inl ((keyLtB_iff k1 k2).2 (Or.inr ⟨h, h2⟩))
    · exact Or.inr (Or.inr (Prod.ext h h2))
    · exact Or.inr (Or.inl ((keyLtB_iff k2 k1).2 (Or.inr ⟨h.symm, h2⟩)))
  · exact Or.inr (Or.inl ((keyLtB_iff k2 k1).2 (Or.inl h)))

/-- C5 counterexample: `pC5a` and `pC5b` are distinct non-empty paths
(different segment contents) with identical comparison keys (5, 1): the
source's `__lt__` and `__gt__` both answer `False` and its `__eq__` answers
`False` as well, so the comparison does not satisfy trichotomy on Paths —
it is not a total order on Paths (only on their keys). -/
theorem C5_counterexample :
    rsc_lt pC5a pC5b = .ok false ∧ rsc_gt pC5a pC5b = .ok false ∧
    rsc_eq pC5a pC5b = false ∧ pC5a ≠ pC5b := by
  refine ⟨rfl, rfl, by decide, by decide⟩

/-- C5 (amended): the comparison of two non-empty Paths is the ascending
lexicographic order on the key (last arrival offset, segment count):
`__lt__`/`__gt__` compute exactly that order, the key order is a strict
total order (irreflexive, transitive, trichotomous), and any two non-empty
Paths are comparable up to key equality. On Paths themselves the comparison
is only a total preorder: distinct Paths with equal keys (see the
counterexample) are unordered yet unequal. -/
theorem C5_amended (p q : RouteSegmentCollection) (sp sq : RouteSegment)
    (hp : p.trips.getLast? = some sp) (hq : q.trips.getLast? = some sq) :
    cmp_key p = .ok (sp.arrival_td, p.trips.length) ∧
    rsc_lt p q = .ok (keyLtB (sp.arrival_td, p.trips.length)
      (sq.arrival_td, q.trips.length)) ∧
    rsc_gt p q = .ok (keyLtB (sq.arrival_td, q.trips.length)
      (sp.arrival_td, p.trips.length)) ∧
    (∀ k1 k2 : ℚ × ℕ, keyLtB k1 k2 = true ↔
      (k1.1 < k2.1 ∨ (k1.1 = k2.1 ∧ k1.2 < k2.2))) ∧
    (∀ k : ℚ × ℕ, keyLtB k k = false) ∧
    (∀ k1 k2 k3 : ℚ × ℕ, keyLtB k1 k2 = true → keyLtB k2 k3 = true →
      keyLtB k1 k3 = true) ∧
    (rsc_lt p q = .ok true ∨ rsc_gt p q = .ok true ∨
      (sp.arrival_td, p.trips.length) = (sq.arrival_td, q.trips.length)) := by
  have hkp : cmp_key p = .ok (sp.arrival_td, p.trips.length) := by
    simp [cmp_key, hp]
  have hkq : cmp_key q = .ok (sq.arrival_td, q.trips.length) := by
    simp [cmp_key, hq]
  have hlt : rsc_lt p q = .ok (keyLtB (sp.arrival_td, p.trips.length)
      (sq.arrival_td, q.trips.length)) := by
    simp [rsc_lt, hkp, hkq]
  have hgt : rsc_gt p q = .ok (keyLtB (sq.arrival_td, q.trips.length)
      (sp.arrival_td, p.trips.length)) := by
    simp [rsc_gt, hkp, hkq]
  refine ⟨hkp, hlt, hgt, keyLtB_iff, keyLtB_irrefl, keyLtB_trans, ?_⟩
  rcases keyLtB_tri (sp.arrival_td, p.trips.length)
      (sq.arrival_td, q.trips.length) with h | h | h
  · exact Or.inl (by rw [hlt, h])
  · exact Or.inr (Or.inl (by rw [hgt, h]))
  · exact Or.inr (Or.inr h)

/-- C5 witness: the amended theorem applied to two concrete non-empty
paths with keys (3, 1) and (4, 1). -/
theorem C5_witness :
    rsc_lt ⟨0, [⟨0, 3, "a", 1⟩]⟩ ⟨0, [⟨0, 4, "b", 1⟩]⟩ =
      .ok (keyLtB (3, 1) (4, 1)) ∧
    rsc_lt ⟨0, [⟨0, 3, "a", 1⟩]⟩ ⟨0, [⟨0, 4, "b", 1⟩]⟩ = .ok true :=
  ⟨(C5_amended ⟨0, [⟨0, 3, "a", 1⟩]⟩ ⟨0, [⟨0, 4, "b", 1⟩]⟩
      ⟨0, 3, "a", 1⟩ ⟨0, 4, "b", 1⟩ rfl rfl).2.1, by decide⟩

/-! ## C2: the push rule -/

/-- C2 counterexample: the tentative map of `stC2` records 10 for stop 5
and `pC2` arrives at stop 5 at exactly 10 (so the recorded value is ≤ the
new arrival); the claim demands a discard, but the source (src/jetlag.py
232-237) skips only on a strictly later arrival and here inserts the path
into the frontier. -/
theorem C2_counterexample :
    alLookup 5 stC2.added_stops = some 10 ∧
    push_to_queue pC2 stC2 =
      .ok { stC2 with queue := [pC2], added_stops := [(5, 10)] } := by
  exact ⟨rfl, by decide⟩

/-- C2 (amended): a successor with destination `stop'` and arrival `t'` is
discarded iff the tentative map records a value strictly smaller than `t'`
for `stop'`; when the recorded value equals `t'` the path is still inserted
(and `t'` re-recorded), and when no value is recorded the path is inserted
and `t'` recorded. -/
theorem C2_amended (rc : RouteSegmentCollection) (st : SearchState)
    (last : RouteSegment) (h : rc.trips.getLast? = some last) :
    (∀ t, alLookup last.arrival_stop_id st.added_stops = some t →
      t < last.arrival_td → push_to_queue rc st = .ok st) ∧
    (∀ t, alLookup last.arrival_stop_id st.added_stops = some t →
      ¬ t < last.arrival_td → push_to_queue rc st = .ok { st with
        queue := st.queue ++ [rc],
        added_stops :=
          alInsert last.arrival_stop_id last.arrival_td st.added_stops }) ∧
    (alLookup last.arrival_stop_id st.added_stops = none →
      push_to_queue rc st = .ok { st with
        queue := st.queue ++ [rc],
        added_stops :=
          alInsert last.arrival_stop_id last.arrival_td st.added_stops }) := by
  refine ⟨fun t ht hlt => ?_, fun t ht hlt => ?_, fun ht => ?_⟩
  · simp [push_to_queue, h, ht, hlt]
  · simp [push_to_queue, h, ht, hlt]
  · simp [push_to_queue, h, ht]

/-- C2 witness: the amended theorem applied at the equal-arrival state
`stC2` / path `pC2`: the path is inserted. -/
theorem C2_witness :
    push_to_queue pC2 stC2 = .ok { stC2 with
      queue := [pC2], added_stops := alInsert 5 10 stC2.added_stops } :=
  (C2_amended pC2 stC2 ⟨10, 10, "seg", 5⟩ rfl).2.1 10 rfl (by norm_num)

/-! ## C10: the tentative map never increases -/

/-- C10: across one call of `push_to_queue`, every recorded tentative value
either survives unchanged or is overwritten by a value ≤ it; and when the
new arrival is strictly later than the recorded value the state is entirely
unchanged. Hence each stop's tentative value is non-increasing over the
run. -/
theorem C10_tentative_nonincreasing (rc : RouteSegmentCollection)
    (st st' : SearchState) (h : push_to_queue rc st = .ok st') :
    (∀ s v, alLookup s st.added_stops = some v →
      ∃ v2, alLookup s st'.added_stops = some v2 ∧ v2 ≤ v) ∧
    (∀ last, rc.trips.getLast? = some last →
      ∀ v, alLookup last.arrival_stop_id st.added_stops = some v →
        v < last.arrival_td → st' = st) := by
  unfold push_to_queue at h
  cases hl : rc.trips.getLast? with
  | none => rw [hl] at h; exact absurd h (by simp)
  | some last =>
    rw [hl] at h
    dsimp only at h
    cases ha : alLookup last.arrival_stop_id st.added_stops with
    | some t =>
      rw [ha] at h
      dsimp only at h
      by_cases hgt : last.arrival_td > t
      · rw [if_pos hgt] at h
        cases h
        exact ⟨fun s v hv => ⟨v, hv, le_refl v⟩, fun l2 hl2 v hv hlt => rfl⟩
      · rw [if_neg hgt] at h
        cases h
        constructor
        · intro s v hv
          by_cases hs : last.arrival_stop_id = s
          · subst hs
            refine ⟨last.arrival_td, ?_, ?_⟩
            · simp [alLookup_alInsert]
            · rw [ha] at hv
              cases hv
              exact not_lt.mp hgt
          · exact ⟨v, by simp [alLookup_alInsert, hs, hv], le_refl v⟩
        · intro l2 hl2 v hv hlt
          cases hl2
          rw [ha] at hv
          cases hv
          exact absurd hlt (by simpa using hgt)
    | none =>
      rw [ha] at h
      dsimp only at h
      cases h
      constructor
      · intro s v hv
        by_cases hs : last.arrival_stop_id = s
        · subst hs
          rw [ha] at hv
          cases hv
        · exact ⟨v, by simp [alLookup_alInsert, hs, hv], le_refl v⟩
      · intro l2 hl2 v hv hlt
        cases hl2
        rw [ha] at hv
        cases hv

/-- C10 witness: offering `pC10` (arrival 7 at stop 5) to `stC2` (which
records 10 for stop 5) yields a recorded value ≤ 10. -/
theorem C10_witness :
    ∃ v2, alLookup 5 stC10'.added_stops = some v2 ∧ v2 ≤ 10 :=
  (C10_tentative_nonincreasing pC10 stC2 stC10' (by decide)).1 5 10 rfl

/-! ## Preservation lemmas for the loop body -/

theorem push_to_queue_fields (rc : RouteSegmentCollection) (st st' : SearchState)
    (h : push_to_queue rc st = .ok st') :
    st'.visited_stops = st.visited_stops ∧
    st'.visited_trips = st.visited_trips ∧ st'.boardings = st.boardings := by
  unfold push_to_queue at h
  cases hl : rc.trips.getLast? with
  | none => rw [hl] at h; exact absurd h (by simp)
  | some last =>
    rw [hl] at h
    dsimp only at h
    cases ha : alLookup last.arrival_stop_id st.added_stops with
    | some t =>
      rw [ha] at h
      dsimp only at h
      by_cases hgt : last.arrival_td > t
      · rw [if_pos hgt] at h; cases h; exact ⟨rfl, rfl, rfl⟩
      · rw [if_neg hgt] at h; cases h; exact ⟨rfl, rfl, rfl⟩
    | none => rw [ha] at h; dsimp only at h; cases h; exact ⟨rfl, rfl, rfl⟩

theorem pushFutureStops_fields (cfg : Config) (rc : RouteSegmentCollection)
    (dep : ℚ) (name : String) (rows : List STRow) (st st' : SearchState)
    (h : pushFutureStops cfg rc dep name rows st = .ok st') :
    st'.visited_stops = st.visited_stops ∧
    st'.visited_trips = st.visited_trips ∧ st'.boardings = st.boardings := by
  induction rows generalizing st with
  | nil => simp only [pushFutureStops] at h; cases h; exact ⟨rfl, rfl, rfl⟩
  | cons row rest ih =>
    unfold pushFutureStops at h
    cases hc : timedelta_coerce row.arrival_time with
    | error e => rw [hc] at h; exact absurd h (by simp)
    | ok arr =>
      rw [hc] at h
      dsimp only at h
      by_cases harr : arr > cfg.horizon
      · rw [if_pos harr] at h
        exact ih st h
      · rw [if_neg harr] at h
        cases hp : push_to_queue (rc.append dep arr name row.stop_id) st with
        | error e => rw [hp] at h; exact absurd h (by simp)
        | ok st2 =>
          rw [hp] at h
          dsimp only at h
          obtain ⟨h1, h2, h3⟩ := push_to_queue_fields _ _ _ hp
          obtain ⟨h4, h5, h6⟩ := ih st2 h
          exact ⟨h4.trans h1, h5.trans h2, h6.trans h3⟩

theorem pushWalks_fields (g : GTFSModel) (cfg : Config)
    (rc : RouteSegmentCollection) (stop : ℕ) (td : ℚ) (ns : List ℕ)
    (st st' : SearchState) (h : pushWalks g cfg rc stop td ns st = .ok st') :
    st'.visited_stops = st.visited_stops ∧
    st'.visited_trips = st.visited_trips ∧ st'.boardings = st.boardings := by
  induction ns generalizing st with
  | nil => simp only [pushWalks] at h; cases h; exact ⟨rfl, rfl, rfl⟩
  | cons s2 rest ih =>
    unfold pushWalks at h
    cases hp : push_to_queue
        (rc.append td (td + g.stop_dist stop s2 / cfg.walking_speed)
          (walkLabel (g.stop_dist stop s2)) s2) st with
    | error e => rw [hp] at h; exact absurd h (by simp)
    | ok st2 =>
      rw [hp] at h
      dsimp only at h
      obtain ⟨h1, h2, h3⟩ := push_to_queue_fields _ _ _ hp
      obtain ⟨h4, h5, h6⟩ := ih st2 h
      exact ⟨h4.trans h1, h5.trans h2, h6.trans h3⟩

theorem walkPhase_fields (g : GTFSModel) (cfg : Config)
    (rc : RouteSegmentCollection) (last : RouteSegment) (st st' : SearchState)
    (h : walkPhase g cfg rc last st = .ok st') :
    st'.visited_stops = st.visited_stops ∧
    st'.visited_trips = st.visited_trips ∧ st'.boardings = st.boardings := by
  unfold walkPhase at h
  by_cases h1 : pyStartsWith last.route_name "Walk " = true
  · rw [if_pos h1] at h; cases h; exact ⟨rfl, rfl, rfl⟩
  · rw [if_neg h1] at h
    by_cases h2 : cfg.walking_speed ≤ 0
    · rw [if_pos h2] at h; cases h; exact ⟨rfl, rfl, rfl⟩
    · rw [if_neg h2] at h
      exact pushWalks_fields _ _ _ _ _ _ _ _ h

theorem processCandidates_visited (g : GTFSModel) (cfg : Config)
    (rc : RouteSegmentCollection) (cands : List STRow) (st st' : SearchState)
    (h : processCandidates g cfg rc cands st = .ok st') :
    st'.visited_stops = st.visited_stops := by
  induction cands generalizing st with
  | nil => simp only [processCandidates] at h; cases h; rfl
  | cons cand rest ih =>
    unfold processCandidates at h
    cases hc : timedelta_coerce cand.departure_time with
    | error e => rw [hc] at h; exact absurd h (by simp)
    | ok dep =>
      rw [hc] at h
      dsimp only at h
      by_cases hm : g.trip_route_types cand.trip_id ∈ cfg.allowed_modes
      · rw [if_pos hm] at h
        by_cases hv : cand.trip_id ∈ st.visited_trips
        · rw [if_pos hv] at h; exact ih st h
        · rw [if_neg hv] at h
          cases hp : pushFutureStops cfg rc dep (g.trip_headsign cand.trip_id)
              (get_future_stops_on_trip g cand.trip_id cand.stop_sequence)
              { st with visited_trips := cand.trip_id :: st.visited_trips,
                        boardings := st.boardings ++ [cand.trip_id] } with
          | error e => rw [hp] at h; exact absurd h (by simp)
          | ok st2 =>
            rw [hp] at h
            dsimp only at h
            have h1 := (pushFutureStops_fields _ _ _ _ _ _ _ hp).1
            exact (ih st2 h).trans h1
      · rw [if_neg hm] at h; exact ih st h

theorem processCandidates_board (g : GTFSModel) (cfg : Config)
    (rc : RouteSegmentCollection) (cands : List STRow) :
    ∀ st st', processCandidates g cfg rc cands st = .ok st' →
      BoardInv st → BoardInv st' := by
  induction cands with
  | nil =>
    intro st st' h hinv
    simp only [processCandidates] at h
    cases h
    exact hinv
  | cons cand rest ih =>
    intro st st' h hinv
    unfold processCandidates at h
    cases hc : timedelta_coerce cand.departure_time with
    | error e => rw [hc] at h; exact absurd h (by simp)
    | ok dep =>
      rw [hc] at h
      dsimp only at h
      by_cases hm : g.trip_route_types cand.trip_id ∈ cfg.allowed_modes
      · rw [if_pos hm] at h
        by_cases hv : cand.trip_id ∈ st.visited_trips
        · rw [if_pos hv] at h; exact ih st st' h hinv
        · rw [if_neg hv] at h
          cases hp : pushFutureStops cfg rc dep (g.trip_headsign cand.trip_id)
              (get_future_stops_on_trip g cand.trip_id cand.stop_sequence)
              { st with visited_trips := cand.trip_id :: st.visited_trips,
                        boardings := st.boardings ++ [cand.trip_id] } with
          | error e => rw [hp] at h; exact absurd h (by simp)
          | ok st2 =>
            rw [hp] at h
            dsimp only at h
            obtain ⟨hnd, hsub⟩ := hinv
            have htnb : cand.trip_id ∉ st.boardings :=
              fun hmem => hv (hsub _ hmem)
            have hinv1 : BoardInv { st with
                visited_trips := cand.trip_id :: st.visited_trips,
                boardings := st.boardings ++ [cand.trip_id] } := by
              constructor
              · simpa [List.nodup_append] using ⟨hnd, htnb⟩
              · intro t ht
                rcases List.mem_append.mp ht with ht | ht
                · exact List.mem_cons_of_mem _ (hsub _ ht)
                · simp only [List.mem_singleton] at ht
                  subst ht
                  exact List.mem_cons_self _ _
            obtain ⟨h1, h2, h3⟩ := pushFutureStops_fields _ _ _ _ _ _ _ hp
            have hinv2 : BoardInv st2 := by
              unfold BoardInv
              rw [h2, h3]
              exact hinv1
            exact ih st2 st' h hinv2
      · rw [if_neg hm] at h; exact ih st st' h hinv

/-- The discard/finalize case split of one loop iteration, expressed as an
equation on `searchStep` given the popped path and its last segment. -/
theorem searchStep_eq (g : GTFSModel) (cfg : Config) (st : SearchState)
    (rc : RouteSegmentCollection)
    (rest : List RouteSegmentCollection) (last : RouteSegment)
    (hpop : popMin st.queue = .ok (rc, rest))
    (hlast : rc.trips.getLast? = some last) :
    searchStep g cfg st =
      match alLookup last.arrival_stop_id st.visited_stops with
      | some _ => .ok { st with queue := rest }
      | none =>
        if last.arrival_td > cfg.horizon then .ok { st with queue := rest }
        else expandPath g cfg rc last
          { st with queue := rest,
                    visited_stops :=
                      alInsert last.arrival_stop_id rc st.visited_stops } := by
  unfold searchStep
  rw [hpop]
  dsimp only
  rw [hlast]

theorem mem_alInsert {α : Type} (k : ℕ) (v : α) (l : List (ℕ × α))
    (x : ℕ × α) (h : x ∈ alInsert k v l) : x = (k, v) ∨ x ∈ l := by
  induction l with
  | nil => simpa [alInsert] using h
  | cons p rest ih =>
    obtain ⟨k2, v2⟩ := p
    by_cases hk : k2 = k
    · rw [show alInsert k v ((k2, v2) :: rest) = (k, v) :: rest from by
        simp [alInsert, hk]] at h
      rcases List.mem_cons.mp h with h2 | h2
      · exact Or.inl h2
      · exact Or.inr (List.mem_cons_of_mem _ h2)
    · rw [show alInsert k v ((k2, v2) :: rest) = (k2, v2) :: alInsert k v rest from by
        simp [alInsert, hk]] at h
      rcases List.mem_cons.mp h with h2 | h2
      · exact Or.inr (List.mem_cons.mpr (Or.inl h2))
      · rcases ih h2 with h3 | h3
        · exact Or.inl h3
        · exact Or.inr (List.mem_cons_of_mem _ h3)

theorem expandPath_visited (g : GTFSModel) (cfg : Config)
    (rc : RouteSegmentCollection) (last : RouteSegment) (st st' : SearchState)
    (h : expandPath g cfg rc last st = .ok st') :
    st'.visited_stops = st.visited_stops := by
  unfold expandPath at h
  cases hp : processCandidates g cfg rc
      (first_available_routes g last.arrival_stop_id last.arrival_td
        cfg.horizon) st with
  | error e => rw [hp] at h; exact absurd h (by simp)
  | ok st3 =>
    rw [hp] at h
    dsimp only at h
    exact ((walkPhase_fields _ _ _ _ _ _ h).1).trans
      (processCandidates_visited _ _ _ _ _ _ hp)

theorem expandPath_board (g : GTFSModel) (cfg : Config)
    (rc : RouteSegmentCollection) (last : RouteSegment) (st st' : SearchState)
    (h : expandPath g cfg rc last st = .ok st') (hinv : BoardInv st) :
    BoardInv st' := by
  unfold expandPath at h
  cases hp : processCandidates g cfg rc
      (first_available_routes g last.arrival_stop_id last.arrival_td
        cfg.horizon) st with
  | error e => rw [hp] at h; exact absurd h (by simp)
  | ok st3 =>
    rw [hp] at h
    dsimp only at h
    obtain ⟨_, h2, h3⟩ := walkPhase_fields _ _ _ _ _ _ h
    have hinv3 := processCandidates_board _ _ _ _ _ _ hp hinv
    unfold BoardInv
    rw [h2, h3]
    exact hinv3

/-! ## C3: finalized entries are write-once -/

/-- C3: across one loop iteration, (a) every existing Finalized entry is
preserved verbatim, (b) the Finalized mapping keeps at most one entry per
stop id, and (c) a popped path whose arrival stop is already finalized is
discarded with no state change other than its removal from the frontier
(src/jetlag.py 245-246, 249). -/
theorem C3_finalized_write_once (g : GTFSModel) (cfg : Config)
    (st st' : SearchState) (h : searchStep g cfg st = .ok st') :
    (∀ s p, alLookup s st.visited_stops = some p →
      alLookup s st'.visited_stops = some p) ∧
    ((st.visited_stops.map Prod.fst).Nodup →
      (st'.visited_stops.map Prod.fst).Nodup) ∧
    (∀ rc rest last, popMin st.queue = .ok (rc, rest) →
      rc.trips.getLast? = some last →
      (alLookup last.arrival_stop_id st.visited_stops).isSome →
      st' = { st with queue := rest }) := by
  unfold searchStep at h
  cases hq : popMin st.queue with
  | error e => rw [hq] at h; exact absurd h (by simp)
  | ok pr =>
    obtain ⟨rc, rest⟩ := pr
    rw [hq] at h
    dsimp only at h
    cases hl : rc.trips.getLast? with
    | none => rw [hl] at h; exact absurd h (by simp)
    | some last =>
      rw [hl] at h
      dsimp only at h
      cases hv : alLookup last.arrival_stop_id st.visited_stops with
      | some p =>
        rw [hv] at h
        dsimp only at h
        cases h
        refine ⟨fun s p2 hp2 => hp2, fun hnd => hnd, ?_⟩
        intro rc2 rest2 last2 hpop2 hlast2 _
        cases hpop2
        rfl
      | none =>
        rw [hv] at h
        dsimp only at h
        by_cases hh : last.arrival_td > cfg.horizon
        · rw [if_pos hh] at h
          cases h
          refine ⟨fun s p2 hp2 => hp2, fun hnd => hnd, ?_⟩
          intro rc2 rest2 last2 hpop2 hlast2 _
          cases hpop2
          rfl
        · rw [if_neg hh] at h
          have hvis := expandPath_visited _ _ _ _ _ _ h
          refine ⟨?_, ?_, ?_⟩
          · intro s p2 hp2
            rw [hvis]
            dsimp only
            rw [alLookup_alInsert]
            by_cases hs : last.arrival_stop_id = s
            · subst hs
              rw [hv] at hp2
              cases hp2
            · rw [if_neg hs]
              exact hp2
          · intro hnd
            rw [hvis]
            dsimp only
            rw [alInsert_keys_of_lookup_none _ _ _ hv]
            have hnm : last.arrival_stop_id ∉ st.visited_stops.map Prod.fst := by
              intro hmem
              have := alLookup_isSome_of_mem_keys _ _ hmem
              rw [hv] at this
              simp at this
            refine List.Nodup.append hnd (List.nodup_singleton _) ?_
            intro a ha hb
            rw [List.mem_singleton] at hb
            subst hb
            exact hnm ha
          · intro rc2 rest2 last2 hpop2 hlast2 hsome
            cases hpop2
            rw [hl] at hlast2
            cases hlast2
            rw [hv] at hsome
            simp at hsome

/-- C3 witness: popping `pFanC` in `stC3`, whose stop 3 is already
finalized, preserves the finalized entry for stop 3. -/
theorem C3_witness :
    alLookup 3 (SearchState.mk [] [(3, pFanC)] [10] [] [10]).visited_stops =
      some pFanC :=
  (C3_finalized_write_once gFan cfgFan stC3
    ⟨[], [(3, pFanC)], [10], [], [10]⟩ (by decide)).1 3 pFanC rfl

/-! ## C4: finalized arrivals respect the horizon -/

theorem searchStep_horizon_inv (g : GTFSModel) (cfg : Config)
    (st st' : SearchState) (h : searchStep g cfg st = .ok st')
    (hinv : HorizonInv cfg st) : HorizonInv cfg st' := by
  unfold searchStep at h
  cases hq : popMin st.queue with
  | error e => rw [hq] at h; exact absurd h (by simp)
  | ok pr =>
    obtain ⟨rc, rest⟩ := pr
    rw [hq] at h
    dsimp only at h
    cases hl : rc.trips.getLast? with
    | none => rw [hl] at h; exact absurd h (by simp)
    | some last =>
      rw [hl] at h
      dsimp only at h
      cases hv : alLookup last.arrival_stop_id st.visited_stops with
      | some p =>
        rw [hv] at h
        dsimp only at h
        cases h
        exact hinv
      | none =>
        rw [hv] at h
        dsimp only at h
        by_cases hh : last.arrival_td > cfg.horizon
        · rw [if_pos hh] at h
          cases h
          exact hinv
        · rw [if_neg hh] at h
          have hvis := expandPath_visited _ _ _ _ _ _ h
          intro sp hsp seg hseg
          rw [hvis] at hsp
          dsimp only at hsp
          rcases mem_alInsert _ _ _ _ hsp with hsp | hsp
          · subst hsp
            dsimp only at hseg
            rw [hl] at hseg
            cases hseg
            exact not_lt.mp hh
          · exact hinv sp hsp seg hseg

theorem runSearch_horizon_inv (g : GTFSModel) (cfg : Config) :
    ∀ fuel (st stf : SearchState), runSearch g cfg fuel st = .ok stf →
      HorizonInv cfg st → HorizonInv cfg stf := by
  intro fuel
  induction fuel with
  | zero =>
    intro st stf h hinv
    unfold runSearch at h
    by_cases hq : st.queue = []
    · rw [if_pos hq] at h; cases h; exact hinv
    · rw [if_neg hq] at h; exact absurd h (by simp)
  | succ n ih =>
    intro st stf h hinv
    unfold runSearch at h
    by_cases hq : st.queue = []
    · rw [if_pos hq] at h; cases h; exact hinv
    · rw [if_neg hq] at h
      cases hs : searchStep g cfg st with
      | error e => rw [hs] at h; exact absurd h (by simp)
      | ok st2 =>
        rw [hs] at h
        dsimp only at h
        exact ih st2 stf h (searchStep_horizon_inv _ _ _ _ hs hinv)

/-- C4: a search started with an empty Finalized mapping terminates with
every finalized path arriving within the horizon; and a popped path whose
arrival offset exceeds the horizon is discarded — removed from the frontier
with no other state change, hence never finalized (src/jetlag.py 247-248). -/
theorem C4_horizon_bound (g : GTFSModel) (cfg : Config) (fuel : ℕ)
    (st0 stf : SearchState) (h0 : st0.visited_stops = [])
    (hrun : runSearch g cfg fuel st0 = .ok stf) :
    HorizonInv cfg stf ∧
    (∀ st st' rc rest last, searchStep g cfg st = .ok st' →
      popMin st.queue = .ok (rc, rest) → rc.trips.getLast? = some last →
      alLookup last.arrival_stop_id st.visited_stops = none →
      last.arrival_td > cfg.horizon → st' = { st with queue := rest }) := by
  constructor
  · refine runSearch_horizon_inv g cfg fuel st0 stf hrun ?_
    intro sp hsp seg hseg
    rw [h0] at hsp
    simp at hsp
  · intro st st' rc rest last h hpop hlast hnone hgt
    rw [searchStep_eq g cfg st rc rest last hpop hlast] at h
    rw [hnone] at h
    dsimp only at h
    rw [if_pos hgt] at h
    cases h
    rfl

/-- C4 witness: in the terminal state of the `gFan` search every finalized
path arrives within the horizon 100. -/
theorem C4_witness : HorizonInv cfgFan stFanFinal :=
  (C4_horizon_bound gFan cfgFan 5 st0Fan stFanFinal rfl (by decide)).1

/-! ## C8: trip deduplication -/

theorem searchStep_board_inv (g : GTFSModel) (cfg : Config)
    (st st' : SearchState) (h : searchStep g cfg st = .ok st')
    (hinv : BoardInv st) : BoardInv st' := by
  unfold searchStep at h
  cases hq : popMin st.queue with
  | error e => rw [hq] at h; exact absurd h (by simp)
  | ok pr =>
    obtain ⟨rc, rest⟩ := pr
    rw [hq] at h
    dsimp only at h
    cases hl : rc.trips.getLast? with
    | none => rw [hl] at h; exact absurd h (by simp)
    | some last =>
      rw [hl] at h
      dsimp only at h
      cases hv : alLookup last.arrival_stop_id st.visited_stops with
      | some p =>
        rw [hv] at h
        dsimp only at h
        cases h
        exact hinv
      | none =>
        rw [hv] at h
        dsimp only at h
        by_cases hh : last.arrival_td > cfg.horizon
        · rw [if_pos hh] at h
          cases h
          exact hinv
        · rw [if_neg hh] at h
          exact expandPath_board _ _ _ _ _ _ h hinv

/-- C8 (amended): global trip deduplication holds for boarding events —
starting from a state whose boarding log is duplicate-free and covered by
`visited_trips`, the whole run preserves this, so no trip id is ever used
as a boarding edge twice. (The claim's further conclusion that a trip id
then appears in at most one finalized Path is false — one boarding fans out
to one successor per downstream stop; see the counterexample.) -/
theorem C8_amended_no_reboarding (g : GTFSModel) (cfg : Config) :
    ∀ fuel (st stf : SearchState), runSearch g cfg fuel st = .ok stf →
      BoardInv st → BoardInv stf := by
  intro fuel
  induction fuel with
  | zero =>
    intro st stf h hinv
    unfold runSearch at h
    by_cases hq : st.queue = []
    · rw [if_pos hq] at h; cases h; exact hinv
    · rw [if_neg hq] at h; exact absurd h (by simp)
  | succ n ih =>
    intro st stf h hinv
    unfold runSearch at h
    by_cases hq : st.queue = []
    · rw [if_pos hq] at h; cases h; exact hinv
    · rw [if_neg hq] at h
      cases hs : searchStep g cfg st with
      | error e => rw [hs] at h; exact absurd h (by simp)
      | ok st2 =>
        rw [hs] at h
        dsimp only at h
        exact ih st2 stf h (searchStep_board_inv _ _ _ _ hs hinv)

/-- C8 counterexample: in the `gFan` search, trip 10 is boarded exactly once
(boarding log `[10]`), yet its boarding edge — the segment labeled with its
headsign "X", departing 10 — appears in TWO distinct finalized Paths (stops
2 and 3), refuting "each trip id appears as a boarding edge in at most one
finalized Path over the whole run". -/
theorem C8_counterexample :
    runSearch gFan cfgFan 5 st0Fan = .ok stFanFinal ∧
    stFanFinal.boardings = [10] ∧
    alLookup 2 stFanFinal.visited_stops = some pFanB ∧
    alLookup 3 stFanFinal.visited_stops = some pFanC ∧
    pFanB ≠ pFanC ∧
    (⟨10, 20, "X", 2⟩ : RouteSegment) ∈ pFanB.trips ∧
    (⟨10, 30, "X", 3⟩ : RouteSegment) ∈ pFanC.trips ∧
    gFan.trip_headsign 10 = "X" := by
  refine ⟨by decide, rfl, rfl, rfl, by decide, by decide, by decide, rfl⟩

/-- C8 witness: the no-reboarding invariant holds at the end of the `gFan`
run. -/
theorem C8_witness : BoardInv stFanFinal :=
  C8_amended_no_reboarding gFan cfgFan 5 st0Fan stFanFinal (by decide)
    ⟨List.nodup_nil, by intro t ht; simp [st0Fan] at ht⟩

/-! ## C6: one earliest candidate per route -/

theorem ddr_cons_mem (g : GTFSModel) (seen : List ℕ) (x : STRow)
    (rest : List STRow) (hm : g.route_of_trip x.trip_id ∈ seen) :
    drop_duplicates_route g seen (x :: rest) =
      drop_duplicates_route g seen rest := by
  simp [drop_duplicates_route, hm]

theorem ddr_cons_not_mem (g : GTFSModel) (seen : List ℕ) (x : STRow)
    (rest : List STRow) (hm : g.route_of_trip x.trip_id ∉ seen) :
    drop_duplicates_route g seen (x :: rest) =
      x :: drop_duplicates_route g (g.route_of_trip x.trip_id :: seen) rest := by
  simp [drop_duplicates_route, hm]

theorem drop_duplicates_route_subset (g : GTFSModel) :
    ∀ (l : List STRow) (seen : List ℕ) (c : STRow),
      c ∈ drop_duplicates_route g seen l →
      c ∈ l ∧ g.route_of_trip c.trip_id ∉ seen := by
  intro l
  induction l with
  | nil => intro seen c h; simp [drop_duplicates_route] at h
  | cons x rest ih =>
    intro seen c h
    by_cases hm : g.route_of_trip x.trip_id ∈ seen
    · rw [ddr_cons_mem g seen x rest hm] at h
      obtain ⟨h1, h2⟩ := ih seen c h
      exact ⟨List.mem_cons_of_mem _ h1, h2⟩
    · rw [ddr_cons_not_mem g seen x rest hm] at h
      rcases List.mem_cons.mp h with h | h
      · subst h
        exact ⟨List.mem_cons_self _ _, hm⟩
      · obtain ⟨h1, h2⟩ := ih _ c h
        exact ⟨List.mem_cons_of_mem _ h1,
          fun hx => h2 (List.mem_cons_of_mem _ hx)⟩

theorem drop_duplicates_route_covers (g : GTFSModel) :
    ∀ (l : List STRow) (seen : List ℕ) (r : STRow), r ∈ l →
      g.route_of_trip r.trip_id ∉ seen →
      ∃ c ∈ drop_duplicates_route g seen l,
        g.route_of_trip c.trip_id = g.route_of_trip r.trip_id := by
  intro l
  induction l with
  | nil => intro seen r h; simp at h
  | cons x rest ih =>
    intro seen r hmem hns
    by_cases hm : g.route_of_trip x.trip_id ∈ seen
    · rw [ddr_cons_mem g seen x rest hm]
      rcases List.mem_cons.mp hmem with h | h
      · subst h
        exact absurd hm hns
      · exact ih seen r h hns
    · rw [ddr_cons_not_mem g seen x rest hm]
      by_cases hrx : g.route_of_trip r.trip_id = g.route_of_trip x.trip_id
      · exact ⟨x, List.mem_cons_self _ _, hrx.symm⟩
      · rcases List.mem_cons.mp hmem with h | h
        · subst h
          exact absurd rfl hrx
        · have hns2 : g.route_of_trip r.trip_id ∉
              g.route_of_trip x.trip_id :: seen := by
            intro hx
            rcases List.mem_cons.mp hx with hx | hx
            · exact hrx hx
            · exact hns hx
          obtain ⟨c, hc1, hc2⟩ := ih _ r h hns2
          exact ⟨c, List.mem_cons_of_mem _ hc1, hc2⟩

theorem drop_duplicates_route_nodup (g : GTFSModel) :
    ∀ (l : List STRow) (seen : List ℕ),
      ((drop_duplicates_route g seen l).map
        (fun r => g.route_of_trip r.trip_id)).Nodup := by
  intro l
  induction l with
  | nil => intro seen; simp [drop_duplicates_route]
  | cons x rest ih =>
    intro seen
    by_cases hm : g.route_of_trip x.trip_id ∈ seen
    · rw [ddr_cons_mem g seen x rest hm]
      exact ih seen
    · rw [ddr_cons_not_mem g seen x rest hm]
      simp only [List.map_cons, List.nodup_cons]
      constructor
      · intro hmem
        obtain ⟨c, hc, he⟩ := List.mem_map.mp hmem
        have h2 := (drop_duplicates_route_subset g rest _ c hc).2
        exact h2 (by rw [he]; exact List.mem_cons_self _ _)
      · exact ih _

theorem drop_duplicates_route_min (g : GTFSModel) :
    ∀ (l : List STRow) (seen : List ℕ), List.Sorted depLe l →
      ∀ c ∈ drop_duplicates_route g seen l, ∀ r ∈ l,
        g.route_of_trip r.trip_id = g.route_of_trip c.trip_id →
        depKey c ≤ depKey r := by
  intro l
  induction l with
  | nil => intro seen _ c hc; simp [drop_duplicates_route] at hc
  | cons x rest ih =>
    intro seen hsort c hc r hr hroute
    have hrest : List.Sorted depLe rest := hsort.of_cons
    by_cases hm : g.route_of_trip x.trip_id ∈ seen
    · rw [ddr_cons_mem g seen x rest hm] at hc
      have hcs := drop_duplicates_route_subset g rest seen c hc
      rcases List.mem_cons.mp hr with h | h
      · subst h
        exact absurd (hroute ▸ hm) hcs.2
      · exact ih seen hrest c hc r h hroute
    · rw [ddr_cons_not_mem g seen x rest hm] at hc
      rcases List.mem_cons.mp hc with h | h
      · subst h
        rcases List.mem_cons.mp hr with h2 | h2
        · subst h2
          exact le_refl _
        · exact List.rel_of_sorted_cons hsort r h2
      · have hcs := drop_duplicates_route_subset g rest _ c h
        rcases List.mem_cons.mp hr with h2 | h2
        · subst h2
          exact absurd (by rw [← hroute]; exact List.mem_cons_self _ _) hcs.2
        · exact ih _ hrest c h r h2 hroute

theorem mem_get_stop_timetable (g : GTFSModel) (stop : ℕ) (r : STRow) :
    r ∈ get_stop_timetable g stop ↔ (r ∈ g.stop_times ∧ r.stop_id = stop) := by
  unfold get_stop_timetable
  rw [List.mem_insertionSort, List.mem_filter]
  simp

theorem sorted_get_stop_timetable (g : GTFSModel) (stop : ℕ) :
    List.Sorted depLe (get_stop_timetable g stop) :=
  List.sorted_insertionSort depLe _

theorem sorted_trips_between (g : GTFSModel) (stop : ℕ) (t hor : ℚ) :
    List.Sorted depLe (trips_between_for_stop g stop t hor) :=
  List.Sorted.filter _ (sorted_get_stop_timetable g stop)

theorem df_time_bound_pred_iff (t hor : ℚ) (ht : t ≠ 0) (hh : hor ≠ 0)
    (r : STRow) :
    (r.arrival_time.isSome && r.departure_time.isSome
      && (decide (t = 0) || decide (t ≤ r.departure_time.getD 0))
      && (decide (hor = 0) || decide (r.arrival_time.getD 0 ≤ hor))) = true ↔
    ∃ d a, r.departure_time = some d ∧ r.arrival_time = some a ∧
      t ≤ d ∧ a ≤ hor := by
  cases hd : r.departure_time with
  | none => simp [hd]
  | some d =>
    cases ha : r.arrival_time with
    | none => simp [ha]
    | some a => simp [hd, ha, ht, hh]

theorem mem_trips_between (g : GTFSModel) (stop : ℕ) (t hor : ℚ)
    (ht : t ≠ 0) (hh : hor ≠ 0) (r : STRow) :
    r ∈ trips_between_for_stop g stop t hor ↔
      (r ∈ g.stop_times ∧ r.stop_id = stop ∧
        ∃ d a, r.departure_time = some d ∧ r.arrival_time = some a ∧
          t ≤ d ∧ a ≤ hor) := by
  unfold trips_between_for_stop df_time_bound
  rw [List.mem_filter, mem_get_stop_timetable,
    df_time_bound_pred_iff t hor ht hh]
  tauto

/-- C6: with nonzero query bounds (the source's truthiness-guarded bounds
are then active), the candidate reduction keeps at most one row per route
id; a route has a candidate iff it has a row in the queried window
(departure ≥ t, arrival ≤ horizon, both times present, at this stop);
every candidate lies in the window; and a candidate's departure time is
the earliest departure of its route within the window. -/
theorem C6_earliest_per_route (g : GTFSModel) (stop : ℕ) (t hor : ℚ)
    (ht : t ≠ 0) (hh : hor ≠ 0) :
    ((first_available_routes g stop t hor).map
      (fun r => g.route_of_trip r.trip_id)).Nodup ∧
    (∀ r, r ∈ trips_between_for_stop g stop t hor ↔
      (r ∈ g.stop_times ∧ r.stop_id = stop ∧
        ∃ d a, r.departure_time = some d ∧ r.arrival_time = some a ∧
          t ≤ d ∧ a ≤ hor)) ∧
    (∀ rid, (∃ c ∈ first_available_routes g stop t hor,
        g.route_of_trip c.trip_id = rid) ↔
      (∃ r ∈ trips_between_for_stop g stop t hor,
        g.route_of_trip r.trip_id = rid)) ∧
    (∀ c ∈ first_available_routes g stop t hor,
      c ∈ trips_between_for_stop g stop t hor ∧
      ∀ r ∈ trips_between_for_stop g stop t hor,
        g.route_of_trip r.trip_id = g.route_of_trip c.trip_id →
        ∀ dc dr, c.departure_time = some dc → r.departure_time = some dr →
          dc ≤ dr) := by
  refine ⟨drop_duplicates_route_nodup g _ [],
    fun r => mem_trips_between g stop t hor ht hh r, ?_, ?_⟩
  · intro rid
    constructor
    · rintro ⟨c, hc, hcr⟩
      exact ⟨c, (drop_duplicates_route_subset g _ [] c hc).1, hcr⟩
    · rintro ⟨r, hr, hrr⟩
      obtain ⟨c, hc, hcr⟩ :=
        drop_duplicates_route_covers g _ [] r hr (by simp)
      exact ⟨c, hc, hcr.trans hrr⟩
  · intro c hc
    have hcw := (drop_duplicates_route_subset g _ [] c hc).1
    refine ⟨hcw, ?_⟩
    intro r hr hroute dc dr hdc hdr
    have hmin := drop_duplicates_route_min g _ []
      (sorted_trips_between g stop t hor) c hc r hr hroute
    rw [show depKey c = (dc : WithTop ℚ) from by simp [depKey, hdc],
        show depKey r = (dr : WithTop ℚ) from by simp [depKey, hdr]] at hmin
    exact_mod_cast hmin

/-- C6 witness: in the `gFan` feed queried at stop 1 from t = 1 to horizon
100, the candidate list has pairwise-distinct route ids and its single
candidate (trip 10's row) departs no later than any windowed row of its
route. -/
theorem C6_witness :
    ((first_available_routes gFan 1 1 100).map
      (fun r => gFan.route_of_trip r.trip_id)).Nodup ∧
    first_available_routes gFan 1 1 100 =
      [{ trip_id := 10, stop_id := 1, stop_sequence := 1,
         arrival_time := some 10, departure_time := some 10 }] :=
  ⟨(C6_earliest_per_route gFan 1 1 100 (by norm_num) (by norm_num)).1,
    by decide⟩

/-! ## C7: walking expansion -/

theorem pushWalks_eq_offerAll (g : GTFSModel) (cfg : Config)
    (rc : RouteSegmentCollection) (stop : ℕ) (td : ℚ) :
    ∀ (ns : List ℕ) (st : SearchState),
      pushWalks g cfg rc stop td ns st =
        offerAll (ns.map (fun s2 =>
          rc.append td (td + g.stop_dist stop s2 / cfg.walking_speed)
            (walkLabel (g.stop_dist stop s2)) s2)) st := by
  intro ns
  induction ns with
  | nil => intro st; rfl
  | cons s2 rest ih =>
    intro st
    simp only [pushWalks, List.map_cons, offerAll]
    cases hp : push_to_queue
        (rc.append td (td + g.stop_dist stop s2 / cfg.walking_speed)
          (walkLabel (g.stop_dist stop s2)) s2) st with
    | error e => rfl
    | ok st2 => exact ih st2

/-- C7 (amended): the walking stage produces no successors when the popped
path's last label starts with "Walk " or when the walking speed is ≤ 0;
otherwise it offers to the frontier exactly one successor per stop within
distance `speed * s` of the popped stop, where `s` is the whole-second part
of `horizon - t`: the successor departs at `t`, arrives at `t + d/speed`
for the straight-line distance `d`, is labeled with the walking label
carrying `d` rounded to the nearest meter, and has that stop as its
destination. -/
theorem C7_amended (g : GTFSModel) (cfg : Config)
    (rc : RouteSegmentCollection) (last : RouteSegment) (st : SearchState) :
    (pyStartsWith last.route_name "Walk " = true →
      walkPhase g cfg rc last st = .ok st) ∧
    (cfg.walking_speed ≤ 0 → walkPhase g cfg rc last st = .ok st) ∧
    (pyStartsWith last.route_name "Walk " = false →
      ¬ cfg.walking_speed ≤ 0 →
      walkPhase g cfg rc last st =
        offerAll ((g.all_stops.filter (fun s2 =>
            decide (g.stop_dist last.arrival_stop_id s2 ≤
              cfg.walking_speed *
                ((timedeltaSeconds (cfg.horizon - last.arrival_td) : ℤ) : ℚ)))).map
          (fun s2 => rc.append last.arrival_td
            (last.arrival_td +
              g.stop_dist last.arrival_stop_id s2 / cfg.walking_speed)
            (walkLabel (g.stop_dist last.arrival_stop_id s2)) s2)) st) ∧
    (∀ s2 : ℕ,
      (rc.append last.arrival_td
        (last.arrival_td +
          g.stop_dist last.arrival_stop_id s2 / cfg.walking_speed)
        (walkLabel (g.stop_dist last.arrival_stop_id s2)) s2).trips.getLast? =
      some ⟨last.arrival_td,
        last.arrival_td +
          g.stop_dist last.arrival_stop_id s2 / cfg.walking_speed,
        walkLabel (g.stop_dist last.arrival_stop_id s2), s2⟩) := by
  refine ⟨?_, ?_, ?_, ?_⟩
  · intro h1
    unfold walkPhase
    rw [if_pos h1]
  · intro h2
    unfold walkPhase
    by_cases h1 : pyStartsWith last.route_name "Walk " = true
    · rw [if_pos h1]
    · rw [if_neg h1, if_pos h2]
  · intro h1 h2
    unfold walkPhase
    rw [if_neg (by simp [h1]), if_neg h2]
    exact pushWalks_eq_offerAll g cfg rc last.arrival_stop_id
      last.arrival_td _ st
  · intro s2
    simp [RouteSegmentCollection.append, RouteSegmentCollection.append_,
      RouteSegmentCollection.get_last_trip]

/-- C7 counterexample: in the `gWalk` search, the walking successors to
stops 2 and 3 have straight-line distances 7/5 m and 3/5 m — two different
values of `d` — yet both appended segments carry the identical label
"Walk 1 meters" (the source labels with `round(d)`, src/jetlag.py 289).
The label therefore does not carry `d`, refuting "labeled as a walking
segment carrying d". -/
theorem C7_counterexample :
    searchStep gWalk cfgWalk st0Walk = .ok stWalkFinal ∧
    gWalk.stop_dist 1 2 = 7/5 ∧ gWalk.stop_dist 1 3 = 3/5 ∧
    (7 : ℚ)/5 ≠ 3/5 ∧
    pWalk2.trips.getLast? = some ⟨0, 7/5, "Walk 1 meters", 2⟩ ∧
    pWalk3.trips.getLast? = some ⟨0, 3/5, "Walk 1 meters", 3⟩ ∧
    walkLabel (7/5) = walkLabel (3/5) := by
  refine ⟨by with_unfolding_all decide, by with_unfolding_all decide,
    by with_unfolding_all decide, by norm_num, by with_unfolding_all decide,
    by with_unfolding_all decide, by with_unfolding_all decide⟩

/-- C7 witness: the amended theorem applied concretely — walking is skipped
under `cfgFan` (speed 0), and under `cfgWalk` the walking stage equals the
per-nearby-stop successor offer. -/
theorem C7_witness :
    walkPhase gFan cfgFan startFan ⟨0, 0, STARTING_ROUTE_NAME, 1⟩ st0Fan =
      .ok st0Fan ∧
    walkPhase gWalk cfgWalk startFan ⟨0, 0, STARTING_ROUTE_NAME, 1⟩ st0Walk =
      offerAll ((gWalk.all_stops.filter (fun s2 =>
          decide (gWalk.stop_dist 1 s2 ≤
            cfgWalk.walking_speed *
              ((timedeltaSeconds (cfgWalk.horizon - 0) : ℤ) : ℚ)))).map
        (fun s2 => startFan.append 0 (0 + gWalk.stop_dist 1 s2 / cfgWalk.walking_speed)
          (walkLabel (gWalk.stop_dist 1 s2)) s2)) st0Walk :=
  ⟨(C7_amended gFan cfgFan startFan ⟨0, 0, STARTING_ROUTE_NAME, 1⟩ st0Fan).2.1
      (le_refl 0),
    (C7_amended gWalk cfgWalk startFan ⟨0, 0, STARTING_ROUTE_NAME, 1⟩
      st0Walk).2.2.1 (by decide) (by decide)⟩

end Jetlag
